import Mathlib

/-!
Shallow embedding of the user-segmentation rule engine (src/server.py).

The server evaluates SQL-WHERE-like segment rules against a user document.
We model the Python code faithfully: Python `str` operations are modelled on
`List Char` over the ASCII inputs the server deals with; Python `dict` user
documents are association lists; Python exceptions become `Except Err`;
Python integers are `Int`; Python floats (which arise only from `/` inside
`eval_expression`) are modelled as exact rationals rounded to IEEE-754
binary64 values, which is CPython's documented arithmetic.
-/

set_option maxRecDepth 16384

namespace SegServer

/-- Python `str.isspace`-relevant ASCII whitespace, the set stripped by
`str.strip()` and matched by the regex class `\s` for the server's inputs. -/
def isWs (c : Char) : Bool :=
  c = ' ' ∨ c = '\t' ∨ c = '\n' ∨ c = '\r' ∨ c = '\x0b' ∨ c = '\x0c'

/-- Regex word character (`\w`) over ASCII: letters, digits, underscore. -/
def isWordChar (c : Char) : Bool :=
  c.isAlphanum ∨ c = '_'

/-- `str.strip()` on a char list: drop leading and trailing whitespace. -/
def stripChars (cs : List Char) : List Char :=
  ((cs.dropWhile isWs).reverse.dropWhile isWs).reverse

/-- `str.strip()` wrapper on `String`. -/
def pyStrip (s : String) : String :=
  (stripChars s.toList).asString

/-- `str.replace(' ', '')`: remove every space character. -/
def removeSpaces (cs : List Char) : List Char :=
  cs.filter (fun c => c ≠ ' ')

/-- `str.strip("'\"")`: repeatedly drop single- and double-quote characters
from both ends. -/
def stripQuoteChars (cs : List Char) : List Char :=
  let isQ : Char → Bool := fun c => c = '\'' ∨ c = '"'
  ((cs.dropWhile isQ).reverse.dropWhile isQ).reverse

/-- Python `str.split()` with no argument: split on whitespace runs,
discarding empty pieces. -/
def splitWsAux (cs : List Char) (cur : List Char) (acc : List (List Char)) :
    List (List Char) :=
  match cs with
  | [] => if cur = [] then acc.reverse else (cur.reverse :: acc).reverse
  | c :: rest =>
      if isWs c then
        if cur = [] then splitWsAux rest [] acc
        else splitWsAux rest [] (cur.reverse :: acc)
      else splitWsAux rest (c :: cur) acc

def splitWs (cs : List Char) : List (List Char) :=
  splitWsAux cs [] []

/-- Python `str.split(sep)` for a one-character separator: keeps empty pieces. -/
def splitOnCharAux (sep : Char) (cs : List Char) (cur : List Char)
    (acc : List (List Char)) : List (List Char) :=
  match cs with
  | [] => (cur.reverse :: acc).reverse
  | c :: rest =>
      if c = sep then splitOnCharAux sep rest [] (cur.reverse :: acc)
      else splitOnCharAux sep rest (c :: cur) acc

def splitOnChar (sep : Char) (cs : List Char) : List (List Char) :=
  splitOnCharAux sep cs [] []

/-- Python `str.isidentifier()` over ASCII: nonempty, first char a letter or
underscore, remaining chars letters, digits or underscores. -/
def isIdentifierTok (cs : List Char) : Bool :=
  match cs with
  | [] => false
  | c :: rest => (c.isAlpha ∨ c = '_') ∧ rest.all (fun d => d.isAlphanum ∨ d = '_')

/-- Keep the first occurrence of each element (Python `set` contents in
insertion order of first sighting; iteration order of a Python set is
abstracted to this order). -/
def dedupKeepFirst : List String → List String
  | [] => []
  | s :: rest =>
      let r := dedupKeepFirst rest
      s :: r.filter (fun t => t ≠ s)

/-- Case-insensitive comparison helper: does `cs` start with keyword `kw`
(given lowercase)? -/
def ciStarts (kw : List Char) (cs : List Char) : Bool :=
  match kw, cs with
  | [], _ => true
  | _ :: _, [] => false
  | k :: ks, c :: rest => c.toLower = k ∧ ciStarts ks rest

/-- Does the word-boundary `\b` hold between `prev` and a word character? -/
def boundaryBefore (prev : Option Char) : Bool :=
  match prev with
  | none => true
  | some c => ¬ isWordChar c

/-- Does `\b` hold after a word, i.e. is the next char absent or non-word? -/
def boundaryAfter (cs : List Char) : Bool :=
  match cs with
  | [] => true
  | c :: _ => ¬ isWordChar c

/-- Core scanner for `re.split(r'\bkw\b', s, flags=re.IGNORECASE)` and the
corresponding `re.sub`: find case-insensitive whole-word occurrences of `kw`
(boundaries judged on the original characters) and split there.  The `Nat`
argument is structural fuel; callers pass the list length, which always
suffices since every step consumes at least one character, so the fuel-out
branch is unreachable. -/
def splitWordAuxF (kw : List Char) : Nat → Option Char → List Char →
    List Char → List (List Char) → List (List Char)
  | 0, _, cs, cur, acc => ((cur.reverse ++ cs) :: acc).reverse
  | n + 1, prev, cs, cur, acc =>
      match cs with
      | [] => (cur.reverse :: acc).reverse
      | c :: rest =>
          if kw ≠ [] ∧ boundaryBefore prev ∧ ciStarts kw cs ∧
             boundaryAfter (cs.drop kw.length) then
            splitWordAuxF kw n (some (kw.getLastD 'x')) (cs.drop kw.length) []
              (cur.reverse :: acc)
          else
            splitWordAuxF kw n (some c) rest (c :: cur) acc

/-- `re.split(r'\bkw\b', cs, flags=re.IGNORECASE)` (`kw` given lowercase). -/
def splitWordCI (kw : List Char) (cs : List Char) : List (List Char) :=
  splitWordAuxF kw cs.length none cs [] []

/-- `re.sub(r'\bkw\b', '', cs, flags=re.IGNORECASE)`. -/
def removeWordCI (kw : List Char) (cs : List Char) : List Char :=
  (splitWordCI kw cs).foldr (fun piece acc => piece ++ acc) []

/-- Helper for `removeQuoted`: given the pieces obtained by splitting at
single quotes, drop every second piece (a quoted literal together with its
quotes); a final unmatched quote is preserved. -/
def removeQuotedGo : List (List Char) → List Char
  | [] => []
  | [a] => a
  | [a, b] => a ++ '\'' :: b
  | a :: _ :: rest => a ++ removeQuotedGo rest

/-- `re.sub(r"'[^']*'", '', cs)`: remove single-quoted literals.  A quote with
no later closing quote stays. -/
def removeQuoted (cs : List Char) : List Char :=
  removeQuotedGo (splitOnChar '\'' cs)

/-- Scanner for `re.sub(r'\b\d+\b', '', cs)`.  `acc` is the reversed digit
run currently open, `runOk` records whether the run began at a word
boundary. -/
def removeNumsGo (runOk : Bool) (acc : List Char) (prev : Option Char) :
    List Char → List Char
  | [] => if acc ≠ [] ∧ runOk then [] else acc.reverse
  | c :: rest =>
      if c.isDigit then
        if acc = [] then removeNumsGo (boundaryBefore prev) [c] prev rest
        else removeNumsGo runOk (c :: acc) prev rest
      else
        (if acc ≠ [] ∧ runOk ∧ ¬ isWordChar c then [] else acc.reverse) ++
          c :: removeNumsGo false [] (some c) rest

/-- `re.sub(r'\b\d+\b', '', cs)`: remove maximal digit runs whose neighbours
(in the original string) are absent or non-word characters. -/
def removeNums (cs : List Char) : List Char :=
  removeNumsGo false [] none cs

/-- `re.sub(r'[<>=!()*/+\-,]', ' ', cs)`. -/
def opCharsToSpace (cs : List Char) : List Char :=
  cs.map (fun c =>
    if c = '<' ∨ c = '>' ∨ c = '=' ∨ c = '!' ∨ c = '(' ∨ c = ')' ∨ c = '*' ∨
       c = '/' ∨ c = '+' ∨ c = '-' ∨ c = ',' then ' ' else c)

/-- Replace every occurrence of the literal substring `pat` by `rep`
(leftmost, non-overlapping), as `str.replace` / `re.sub` on a literal
pattern do.  Fueled like `splitWordAuxF`. -/
def replaceSubstrAuxF (pat rep : List Char) : Nat → List Char → List Char
  | 0, cs => cs
  | n + 1, cs =>
      match cs with
      | [] => []
      | c :: rest =>
          if pat ≠ [] ∧ cs.take pat.length = pat then
            rep ++ replaceSubstrAuxF pat rep n (cs.drop pat.length)
          else
            c :: replaceSubstrAuxF pat rep n rest

def replaceSubstr (pat rep : String) (s : String) : String :=
  (replaceSubstrAuxF pat.toList rep.toList s.toList.length s.toList).asString

/-- Decimal digits of a natural number. -/
def natDigits (n : Nat) : List Char :=
  Nat.toDigits 10 n

/-- Python `str(int)`. -/
def intStr (n : Int) : String :=
  if n < 0 then ('-' :: natDigits n.natAbs).asString else (natDigits n.natAbs).asString

/-! ## Python values and the user document -/

/-- A Python value as it can appear in the JSON-decoded user document.
Floats are represented by the exact rational they denote. -/
inductive PyVal where
  | pstr (s : String)
  | pint (n : Int)
  | pbool (b : Bool)
  | pfloat (q : ℚ)
  | pnone
deriving DecidableEq

/-- Reason a Python exception was raised while evaluating an arithmetic
expression via `eval`.  `libmPow` is a model artifact marking the
exponentiation cases delegated to the platform's `pow` with a non-integral
exponent (or an infinite/NaN operand), whose results this model does not
pin down; no theorem below relies on that region. -/
inductive EvalReason where
  | syntaxBad
  | zeroDiv
  | overflow
  | typeBad
  | libmPow
deriving DecidableEq

/-- Abnormal outcomes of the server's core functions.  Each constructor
corresponds to one `raise` site (or propagated exception class) in
src/server.py; the message strings of the Python `ValueError`s are abstracted
to the payload data they interpolate. -/
inductive Err where
  | missingField (f : String)
  | nullField (f : String)
  | notString (f : String)
  | emptyString (f : String)
  | notInteger (f : String)
  | negativeValue (f : String)
  | unbalancedParens
  | invalidOperator
  | emptyCondition
  | unknownFields (fs : List String)
  | invalidFormat (cond : String)
  | invalidExpression (s : String)
  | evalFailed (s : String) (r : EvalReason)
  | typeErrorCmp
  | keyError (f : String)
  | intParseFailed (s : String)
  | regexUnsupported (pat : String)
  | fuelExhausted
deriving DecidableEq

deriving instance DecidableEq for Except

/-- The raw user document: a JSON object modelled as an association list
with distinct keys (a Python `dict`). -/
def User : Type := List (String × PyVal)

/-- `VALID_FIELDS` from src/server.py (a Python set; modelled as a list). -/
def VALID_FIELDS : List String :=
  ["id", "level", "country", "first_session", "last_session",
   "purchase_amount", "last_purchase_at"]

/-- `STRING_FIELDS` from src/server.py. -/
def STRING_FIELDS : List String := ["id", "country"]

/-- `NUMERIC_FIELDS` from src/server.py. -/
def NUMERIC_FIELDS : List String :=
  ["level", "first_session", "last_session", "purchase_amount", "last_purchase_at"]

/-- Python `isinstance(v, str)`. -/
def isinstanceStr : PyVal → Bool
  | .pstr _ => true
  | _ => false

/-- Python `isinstance(v, int)`.  Note that `bool` is a subclass of `int` in
Python, so booleans satisfy this check; floats do not. -/
def isinstanceInt : PyVal → Bool
  | .pint _ => true
  | .pbool _ => true
  | _ => false

/-- Python `v < 0`, used by the validator only after `isinstance(v, int)`
succeeded (`True` counts as 1, `False` as 0). -/
def pyNegative : PyVal → Bool
  | .pint n => n < 0
  | .pbool _ => false
  | _ => false

/-- Python `v == ""`, used by the validator only on `str` values. -/
def pyEmptyStr : PyVal → Bool
  | .pstr s => s = ""
  | _ => false

/-- `required_fields` from `validate_user_document`. -/
def REQUIRED_FIELDS : List String :=
  ["id", "level", "country", "first_session", "last_session",
   "purchase_amount", "last_purchase_at"]

/-- Dict membership / lookup: first (only) binding of a key. -/
def userGetOpt (u : User) (f : String) : Option PyVal :=
  match u with
  | [] => none
  | (k, v) :: rest => if k = f then some v else userGetOpt rest f

/-- The `for field in required_fields` presence loop of
`validate_user_document`. -/
def checkRequired (fs : List String) (u : User) : Except Err Unit :=
  match fs with
  | [] => .ok ()
  | f :: rest =>
      if (userGetOpt u f).isSome then checkRequired rest u
      else .error (.missingField f)

/-- The body of the `for field, value in user.items()` loop of
`validate_user_document`, for one item. -/
def itemCheck (fv : String × PyVal) : Except Err Unit :=
  let f := fv.1
  let v := fv.2
  if v = .pnone then .error (.nullField f)
  else if STRING_FIELDS.contains f then
    if isinstanceStr v = false then .error (.notString f)
    else if pyEmptyStr v then .error (.emptyString f)
    else .ok ()
  else if NUMERIC_FIELDS.contains f then
    if isinstanceInt v = false then .error (.notInteger f)
    else if pyNegative v then .error (.negativeValue f)
    else .ok ()
  else .ok ()

/-- The items loop of `validate_user_document`: first failure wins. -/
def itemsCheck (items : List (String × PyVal)) : Except Err Unit :=
  match items with
  | [] => .ok ()
  | fv :: rest =>
      match itemCheck fv with
      | .error e => .error e
      | .ok _ => itemsCheck rest

/-- `validate_user_document(user)` from src/server.py (returning `True`
becomes returning `()`; each `raise ValueError` becomes `Except.error`). -/
def validate_user_document (u : User) : Except Err Unit :=
  match checkRequired REQUIRED_FIELDS u with
  | .error e => .error e
  | .ok _ => itemsCheck u

/-! ## IEEE-754 binary64 model

`eval_expression` delegates to Python `eval`, whose `/` on the admitted inputs
is CPython true division: correctly rounded IEEE-754 binary64 (round to
nearest, ties to even).  We model a finite double by the exact rational it
denotes.  Rationals are represented by explicit (unnormalized) fractions
with positive denominator, because the library `Rat` operations are
irreducible and cannot be evaluated by the kernel. -/

/-- An exact fraction `num / den`; every constructor and operation below
keeps `den` positive. -/
structure Q2 where
  num : Int
  den : Int
deriving DecidableEq

def q2OfInt (n : Int) : Q2 := ⟨n, 1⟩

def q2Neg (a : Q2) : Q2 := ⟨-a.num, a.den⟩

def q2Add (a b : Q2) : Q2 := ⟨a.num * b.den + b.num * a.den, a.den * b.den⟩

def q2Sub (a b : Q2) : Q2 := q2Add a (q2Neg b)

def q2Mul (a b : Q2) : Q2 := ⟨a.num * b.num, a.den * b.den⟩

/-- Division of fractions (the divisor must be nonzero); the sign is moved
to the numerator to keep the denominator positive. -/
def q2Div (a b : Q2) : Q2 :=
  if b.num < 0 then ⟨a.num * (-b.den), a.den * (-b.num)⟩
  else ⟨a.num * b.den, a.den * b.num⟩

def q2Le (a b : Q2) : Bool := a.num * b.den ≤ b.num * a.den

def q2Lt (a b : Q2) : Bool := a.num * b.den < b.num * a.den

def q2IsZero (a : Q2) : Bool := a.num = 0

def q2IsNeg (a : Q2) : Bool := a.num < 0

/-- `2 ^ k` as a fraction, for an integer exponent. -/
def q2Pow2 (k : ℤ) : Q2 :=
  if 0 ≤ k then ⟨(2 ^ k.toNat : Nat), 1⟩ else ⟨1, (2 ^ (-k).toNat : Nat)⟩

/-- `x ^ n` on fractions, for a natural exponent. -/
def q2PowNat (x : Q2) (n : Nat) : Q2 := ⟨x.num ^ n, x.den ^ n⟩

/-- Does the fraction denote an integer? -/
def q2IsIntegral (y : Q2) : Bool := y.num % y.den = 0

/-- Floor of a fraction (the denominator is positive). -/
def q2FloorQ (a : Q2) : Int := Int.fdiv a.num a.den

/-- Floor of a nonnegative fraction. -/
def q2FloorPos (a : Q2) : Int :=
  ((a.num.natAbs / a.den.natAbs : Nat) : Int)

/-- Truncation toward zero, Python `int(float)`. -/
def q2Trunc (a : Q2) : Int :=
  if a.num < 0 then -(((a.num.natAbs / a.den.natAbs : Nat) : Int))
  else ((a.num.natAbs / a.den.natAbs : Nat) : Int)

/-- Structural (fueled) base-2 logarithm on naturals: `natLog2F fuel n` is
`⌊log2 n⌋` for `n ≥ 1` whenever `fuel ≥ n`. -/
def natLog2F : Nat → Nat → Nat
  | 0, _ => 0
  | f + 1, n => if 2 ≤ n then natLog2F f (n / 2) + 1 else 0

/-- `⌊log2 n⌋` (0 for 0). -/
def natLog2 (n : Nat) : Nat :=
  natLog2F n n

/-- `⌊log2 a⌋` for a positive fraction, computed from the bit lengths of
numerator and denominator and corrected by direct comparison. -/
def qlog2 (a : Q2) : ℤ :=
  let k : ℤ := (natLog2 a.num.natAbs : ℤ) - (natLog2 a.den.natAbs : ℤ)
  if q2Le (q2Pow2 (k + 1)) a then k + 1
  else if q2Lt a (q2Pow2 k) then k - 1
  else k

/-- Round an exact fraction to the nearest binary64-representable value
(ties to even), with the exponent range clamped below at the subnormal
scale `2^-1074` but unbounded above (overflow is detected by callers by
comparing against `2^1024`). -/
def roundF (q : Q2) : Q2 :=
  if q2IsZero q then q2OfInt 0
  else
    let neg := q2IsNeg q
    let a := if neg then q2Neg q else q
    let e : ℤ := qlog2 a
    let scale : ℤ := max (e - 52) (-1074)
    let m : Q2 := q2Div a (q2Pow2 scale)
    let n : ℤ := q2FloorPos m
    let r : Q2 := q2Sub m (q2OfInt n)
    let half : Q2 := ⟨1, 2⟩
    let n' : ℤ :=
      if q2Lt half r then n + 1
      else if q2Lt r half then n
      else if n % 2 = 0 then n else n + 1
    let res := q2Mul (q2OfInt n') (q2Pow2 scale)
    if neg then q2Neg res else res

/-- A Python float value: finite (by the exact fraction it denotes),
infinite, or NaN. -/
inductive PyF where
  | fin (q : Q2)
  | inf (pos : Bool)
  | nan
deriving DecidableEq

/-- Binary64 rounding of an exact rational result of a float operation:
overflow produces a signed infinity, as IEEE (and hence CPython) float
arithmetic does. -/
def qRound (q : Q2) : PyF :=
  let r := roundF q
  if q2Le (q2Pow2 1024) r then .inf true
  else if q2Le r (q2Neg (q2Pow2 1024)) then .inf false
  else .fin r

/-- A Python number during `eval`: an arbitrary-precision `int` or a float.
Integer `+`, `-`, `*` stay exact; `/` and any mixed operation go through
floats. -/
inductive PyNum where
  | pi (n : Int)
  | pf (f : PyF)
deriving DecidableEq

/-- Python `float(int)` conversion, which raises `OverflowError` for
integers too large for a double. -/
def intToF (n : Int) : Except EvalReason PyF :=
  match qRound (q2OfInt n) with
  | .fin q => .ok (.fin q)
  | _ => .error .overflow

/-- IEEE addition on float values. -/
def fAdd : PyF → PyF → PyF
  | .nan, _ => .nan
  | _, .nan => .nan
  | .inf p, .inf q => if p = q then .inf p else .nan
  | .inf p, .fin _ => .inf p
  | .fin _, .inf q => .inf q
  | .fin a, .fin b => qRound (q2Add a b)

/-- IEEE negation on float values. -/
def fNeg : PyF → PyF
  | .nan => .nan
  | .inf p => .inf (!p)
  | .fin a => .fin (q2Neg a)

/-- IEEE multiplication on float values. -/
def fMul : PyF → PyF → PyF
  | .nan, _ => .nan
  | _, .nan => .nan
  | .inf p, .inf q => .inf (p = q)
  | .inf p, .fin b => if q2IsZero b then .nan else .inf (p = !(q2IsNeg b))
  | .fin a, .inf q => if q2IsZero a then .nan else .inf (q = !(q2IsNeg a))
  | .fin a, .fin b => qRound (q2Mul a b)

/-- IEEE division on float values.  Division by (any) zero raises
`ZeroDivisionError` in Python rather than producing an infinity. -/
def fDiv : PyF → PyF → Except EvalReason PyF
  | .nan, _ => .ok .nan
  | _, .nan => .ok .nan
  | x, .fin b =>
      if q2IsZero b then .error .zeroDiv
      else
        match x with
        | .nan => .ok .nan
        | .inf p => .ok (.inf (p = !(q2IsNeg b)))
        | .fin a => .ok (qRound (q2Div a b))
  | .inf _, .inf _ => .ok .nan
  | .fin _, .inf _ => .ok (.fin (q2OfInt 0))

/-- Python `+` on numbers; mixed int/float operands convert the int first
(raising on conversion overflow, as CPython does). -/
def pyAdd : PyNum → PyNum → Except EvalReason PyNum
  | .pi a, .pi b => .ok (.pi (a + b))
  | .pi a, .pf y => do let x ← intToF a; .ok (.pf (fAdd x y))
  | .pf x, .pi b => do let y ← intToF b; .ok (.pf (fAdd x y))
  | .pf x, .pf y => .ok (.pf (fAdd x y))

/-- Python unary `-` on numbers. -/
def pyNeg : PyNum → PyNum
  | .pi a => .pi (-a)
  | .pf x => .pf (fNeg x)

/-- Python `-` on numbers. -/
def pySub (a b : PyNum) : Except EvalReason PyNum :=
  pyAdd a (pyNeg b)

/-- Python `*` on numbers. -/
def pyMul : PyNum → PyNum → Except EvalReason PyNum
  | .pi a, .pi b => .ok (.pi (a * b))
  | .pi a, .pf y => do let x ← intToF a; .ok (.pf (fMul x y))
  | .pf x, .pi b => do let y ← intToF b; .ok (.pf (fMul x y))
  | .pf x, .pf y => .ok (.pf (fMul x y))

/-- Python `/` (true division) on numbers.  `int / int` is correctly rounded
by CPython and raises `OverflowError` when the exact quotient is too large
for a double, `ZeroDivisionError` on a zero divisor. -/
def pyDiv : PyNum → PyNum → Except EvalReason PyNum
  | .pi a, .pi b =>
      if b = 0 then .error .zeroDiv
      else
        match qRound (q2Div (q2OfInt a) (q2OfInt b)) with
        | .fin q => .ok (.pf (.fin q))
        | _ => .error .overflow
  | .pi a, .pf y => do
      let x ← intToF a
      let z ← fDiv x y
      .ok (.pf z)
  | .pf x, .pi b => do
      let y ← intToF b
      let z ← fDiv x y
      .ok (.pf z)
  | .pf x, .pf y => do
      let z ← fDiv x y
      .ok (.pf z)

/-- Float exponentiation with an integral exponent, the case CPython's
`float ** float` computes via the platform `pow`: correctly rounded power
of the exact base value (true of glibc's `pow`), raising `OverflowError`
when the rounded result leaves the finite range (CPython's `float_pow`
raises instead of returning an infinity) and `ZeroDivisionError` for a zero
base with a negative exponent. -/
def fPowCore (x : Q2) (b : Int) : Except EvalReason PyF :=
  if 0 ≤ b then
    match qRound (q2PowNat x b.toNat) with
    | .fin q => .ok (.fin q)
    | _ => .error .overflow
  else if q2IsZero x then .error .zeroDiv
  else
    match qRound (q2Div (q2OfInt 1) (q2PowNat x (-b).toNat)) with
    | .fin q => .ok (.fin q)
    | _ => .error .overflow

/-- Python `**`.  `int ** int` with a nonnegative exponent is exact integer
power; every other combination converts the integer operands to floats
first (raising on conversion overflow, as CPython does) and delegates to
float power.  A non-integral exponent (or an infinite/NaN operand) is the
`libmPow` model artifact — no theorem exercises it. -/
def pyPow : PyNum → PyNum → Except EvalReason PyNum
  | .pi a, .pi b =>
      if 0 ≤ b then .ok (.pi (a ^ b.toNat))
      else if a = 0 then .error .zeroDiv
      else do
        let xa ← intToF a
        let xb ← intToF b
        match xa, xb with
        | .fin x, .fin y => do
            let r ← fPowCore x (y.num / y.den)
            .ok (.pf r)
        | _, _ => .error .overflow
  | .pf (.fin x), .pi b => do
      let yb ← intToF b
      match yb with
      | .fin y => do
          let r ← fPowCore x (y.num / y.den)
          .ok (.pf r)
      | _ => .error .overflow
  | .pi a, .pf (.fin y) => do
      let xa ← intToF a
      match xa with
      | .fin x =>
          if q2IsIntegral y then do
            let r ← fPowCore x (y.num / y.den)
            .ok (.pf r)
          else .error .libmPow
      | _ => .error .overflow
  | .pf (.fin x), .pf (.fin y) =>
      if q2IsIntegral y then do
        let r ← fPowCore x (y.num / y.den)
        .ok (.pf r)
      else .error .libmPow
  | _, _ => .error .libmPow

/-- IEEE floor division on float values, as CPython's `float_floordiv`:
the floor of the exact quotient, returned as a double (rounding only when
the floor exceeds 2^53, a region no theorem reaches); zero divisors raise
`ZeroDivisionError`, an infinite dividend gives NaN, and a finite dividend
over an infinity floors the signed infinitesimal quotient. -/
def fFloorDiv : PyF → PyF → Except EvalReason PyF
  | .nan, _ => .ok .nan
  | _, .nan => .ok .nan
  | x, .fin b =>
      if q2IsZero b then .error .zeroDiv
      else
        match x with
        | .fin a => .ok (qRound (q2OfInt (q2FloorQ (q2Div a b))))
        | .inf _ => .ok .nan
        | .nan => .ok .nan
  | .inf _, .inf _ => .ok .nan
  | .fin a, .inf p =>
      if q2IsZero a then .ok (.fin (q2OfInt 0))
      else if q2IsNeg a = p then .ok (.fin (q2OfInt (-1)))
      else .ok (.fin (q2OfInt 0))

/-- Python `//`: floor division.  `int // int` is exact; mixed operands
convert the int to float first. -/
def pyFloorDiv : PyNum → PyNum → Except EvalReason PyNum
  | .pi a, .pi b =>
      if b = 0 then .error .zeroDiv else .ok (.pi (Int.fdiv a b))
  | .pi a, .pf y => do
      let x ← intToF a
      let r ← fFloorDiv x y
      .ok (.pf r)
  | .pf x, .pi b => do
      let y ← intToF b
      let r ← fFloorDiv x y
      .ok (.pf r)
  | .pf x, .pf y => do
      let r ← fFloorDiv x y
      .ok (.pf r)

/-- Python `int(x)` on a number: identity on ints, truncation toward zero on
finite floats; raises on infinities and NaN. -/
def pyIntOf : PyNum → Except EvalReason Int
  | .pi n => .ok n
  | .pf (.fin q) => .ok (q2Trunc q)
  | .pf _ => .error .overflow

/-! ## The restricted Python expression grammar inside `eval_expression`

After the character filter, the string fed to `eval` can only contain digits,
`+ - * /` and parentheses — which still admits the multi-character operators
`**` (exponentiation) and `//` (floor division).  The reachable Python
grammar is therefore
`additive := mult (('+'|'-') mult)*`,
`mult := unary (('*'|'//'|'/') unary)*`,
`unary := ('+'|'-') unary | power`,
`power := atom ['**' unary]` (right operand a `unary`, so `**` is
right-associative and binds tighter than unary minus on its left),
`atom := INT | '(' additive ')'`, where `INT` is a digit run that is either
all zeros or has no leading zero (Python 3 rejects literals like `07` with
a `SyntaxError`).  A complete parse must consume the whole string; anything
else `eval` raises on, which `eval_expression` converts to a
`ValueError`. -/

/-- Lex an integer literal: a maximal digit run, applying Python 3's
leading-zero rule. -/
def lexInt (cs : List Char) : Except EvalReason (Int × List Char) :=
  let run := cs.takeWhile Char.isDigit
  let rest := cs.dropWhile Char.isDigit
  match run with
  | [] => .error .syntaxBad
  | d :: ds =>
      if d = '0' ∧ ds.any (fun c => c ≠ '0') then .error .syntaxBad
      else
        .ok ((((d :: ds).foldl (fun a c => a * 10 + (c.toNat - 48)) 0 : Nat) : Int), rest)

mutual

/-- `additive`: a `mult` followed by `(('+'|'-') mult)*`. -/
def parseAddE : Nat → List Char → Except EvalReason (PyNum × List Char)
  | 0, _ => .error .syntaxBad
  | n + 1, cs => do
      let (v, rest) ← parseMulE n cs
      parseAddLoop n v rest

def parseAddLoop : Nat → PyNum → List Char → Except EvalReason (PyNum × List Char)
  | 0, _, _ => .error .syntaxBad
  | n + 1, v, cs =>
      match cs with
      | '+' :: rest => do
          let (w, rest') ← parseMulE n rest
          let v' ← pyAdd v w
          parseAddLoop n v' rest'
      | '-' :: rest => do
          let (w, rest') ← parseMulE n rest
          let v' ← pySub v w
          parseAddLoop n v' rest'
      | _ => .ok (v, cs)

/-- `mult`: a `unary` followed by `(('*'|'/') unary)*`. -/
def parseMulE : Nat → List Char → Except EvalReason (PyNum × List Char)
  | 0, _ => .error .syntaxBad
  | n + 1, cs => do
      let (v, rest) ← parseUnaryE n cs
      parseMulLoop n v rest

def parseMulLoop : Nat → PyNum → List Char → Except EvalReason (PyNum × List Char)
  | 0, _, _ => .error .syntaxBad
  | n + 1, v, cs =>
      match cs with
      | '/' :: '/' :: rest => do
          let (w, rest') ← parseUnaryE n rest
          let v' ← pyFloorDiv v w
          parseMulLoop n v' rest'
      | '*' :: rest => do
          let (w, rest') ← parseUnaryE n rest
          let v' ← pyMul v w
          parseMulLoop n v' rest'
      | '/' :: rest => do
          let (w, rest') ← parseUnaryE n rest
          let v' ← pyDiv v w
          parseMulLoop n v' rest'
      | _ => .ok (v, cs)

/-- `unary`: chained unary signs, then a `power`. -/
def parseUnaryE : Nat → List Char → Except EvalReason (PyNum × List Char)
  | 0, _ => .error .syntaxBad
  | n + 1, cs =>
      match cs with
      | '+' :: rest => parseUnaryE n rest
      | '-' :: rest => do
          let (v, rest') ← parseUnaryE n rest
          .ok (pyNeg v, rest')
      | _ => parsePowE n cs

/-- `power`: an atom, optionally raised by `**` to a `unary` (so `2**3**2`
is `2**(3**2)` and `2**-1` parses). -/
def parsePowE : Nat → List Char → Except EvalReason (PyNum × List Char)
  | 0, _ => .error .syntaxBad
  | n + 1, cs => do
      let (v, rest) ← parseAtomE n cs
      match rest with
      | '*' :: '*' :: rest' => do
          let (w, rest'') ← parseUnaryE n rest'
          let v' ← pyPow v w
          .ok (v', rest'')
      | _ => .ok (v, rest)

/-- `atom`: an integer literal or a parenthesized `additive`. -/
def parseAtomE : Nat → List Char → Except EvalReason (PyNum × List Char)
  | 0, _ => .error .syntaxBad
  | n + 1, cs =>
      match cs with
      | '(' :: rest => do
          let (v, rest') ← parseAddE n rest
          match rest' with
          | ')' :: rest'' => .ok (v, rest'')
          | _ => .error .syntaxBad
      | _ => do
          let (k, rest) ← lexInt cs
          .ok (.pi k, rest)

end

/-- Is every character in the regex class `[0-9+\-*/() ]` of the safety
check in `eval_expression`?  The regex also requires at least one character. -/
def charsOk (cs : List Char) : Bool :=
  cs ≠ [] ∧ cs.all (fun c =>
    c.isDigit ∨ c = '+' ∨ c = '-' ∨ c = '*' ∨ c = '/' ∨ c = '(' ∨ c = ')' ∨ c = ' ')

/-- `eval_expression(expression)` from src/server.py: strip, remove spaces,
filter the character set, then `int(eval(expression))`, with every exception
from the evaluation turned into a `ValueError`. -/
def eval_expression (s : String) : Except Err Int :=
  let s1 := stripChars s.toList
  let s2 := removeSpaces s1
  if charsOk s2 then
    match (do
        let (v, rest) ← parseAddE (6 * s2.length + 8) s2
        match rest with
        | [] => pyIntOf v
        | _ => (.error .syntaxBad : Except EvalReason Int)) with
    | .ok n => .ok n
    | .error r => .error (.evalFailed s2.asString r)
  else .error (.invalidExpression s2.asString)

/-! ## Python comparison semantics on document values -/

/-- Numeric view of a Python value (`bool` counts as 0/1; floats never occur
in comparisons reached by the server, since document floats fail validation
and `eval_expression` results are `int`s). -/
def asNum : PyVal → Option Int
  | .pint n => some n
  | .pbool b => some (if b then 1 else 0)
  | _ => none

/-- Python `==` on the values that can meet in a comparison: numbers compare
numerically, strings compare as strings, `None` equals `None`, everything
cross-type is unequal (never an error). -/
def pyEq (a b : PyVal) : Bool :=
  match asNum a, asNum b with
  | some x, some y => x = y
  | _, _ =>
      match a, b with
      | .pstr s, .pstr t => s = t
      | .pnone, .pnone => true
      | _, _ => false

/-- Lexicographic order on char lists by code points. -/
def charsLt : List Char → List Char → Bool
  | [], [] => false
  | [], _ :: _ => true
  | _ :: _, [] => false
  | c :: cs, d :: ds => c < d ∨ (c = d ∧ charsLt cs ds)

/-- Lexicographic string-order comparison by code points (Python `<`). -/
def strLt (a b : String) : Bool :=
  charsLt a.toList b.toList

/-- Python `<` on document values: numbers and strings are ordered within
their kind; a mixed number/string comparison raises `TypeError`. -/
def pyLt (a b : PyVal) : Except Err Bool :=
  match asNum a, asNum b with
  | some x, some y => .ok (x < y)
  | _, _ =>
      match a, b with
      | .pstr s, .pstr t => .ok (strLt s t)
      | _, _ => .error .typeErrorCmp

/-- Python `<=` on document values. -/
def pyLe (a b : PyVal) : Except Err Bool :=
  match asNum a, asNum b with
  | some x, some y => .ok (x ≤ y)
  | _, _ =>
      match a, b with
      | .pstr s, .pstr t => .ok (strLt s t ∨ s = t)
      | _, _ => .error .typeErrorCmp

/-- Python `str(v)` for document values (floats are unreachable here; their
repr is abstracted). -/
def pyStr : PyVal → String
  | .pstr s => s
  | .pint n => intStr n
  | .pbool b => if b then "True" else "False"
  | .pnone => "None"
  | .pfloat _ => "<float>"

/-- `user[field]`: Python dict indexing, raising `KeyError` when absent. -/
def userGet (u : User) (f : String) : Except Err PyVal :=
  match userGetOpt u f with
  | some v => .ok v
  | none => .error (.keyError f)

/-- Python `int(str)`: optional surrounding whitespace, an optional sign,
then a nonempty digit run in which single underscores may separate digits;
anything else raises `ValueError`. -/
def intParseDigits : List Char → Bool
  | [] => false
  | [c] => c.isDigit
  | c :: d :: rest =>
      if c.isDigit then
        if d = '_' then
          match rest with
          | [] => false
          | e :: _ => e.isDigit ∧ intParseDigits rest
        else d.isDigit ∧ intParseDigits (d :: rest)
      else false

/-- Digit-run value ignoring underscores. -/
def digitsVal (cs : List Char) : Nat :=
  cs.foldl (fun a c => if c = '_' then a else a * 10 + (c.toNat - 48)) 0

/-- Python `int(s)` on a string. -/
def pyIntParse (s : String) : Except Err Int :=
  let cs := stripChars s.toList
  match cs with
  | '-' :: rest =>
      if intParseDigits rest then .ok (-(digitsVal rest : Int))
      else .error (.intParseFailed s)
  | '+' :: rest =>
      if intParseDigits rest then .ok ((digitsVal rest : Int))
      else .error (.intParseFailed s)
  | rest =>
      if intParseDigits rest then .ok ((digitsVal rest : Int))
      else .error (.intParseFailed s)

/-! ## A matcher for the regexes produced by the LIKE translation

`parse_comparison` builds `'^' + pattern.replace('%', '.*').replace('_', '.')
+ '$'` and calls `re.match` on it.  We interpret the fragment of `re` syntax
consisting of literal characters, `.` and a postfix `*`; a pattern using any
other regex metacharacter is outside the modelled fragment and yields a
`regexUnsupported` artifact error (no claim exercises such a pattern). -/

/-- One regex atom with its star flag: `none` char means `.`. -/
def RAtom : Type := Option Char × Bool

/-- Is a character a regex metacharacter outside the modelled fragment
(including a bare `*`, which the translation can also produce)? -/
def rMeta (c : Char) : Bool :=
  c = '(' ∨ c = ')' ∨ c = '[' ∨ c = ']' ∨ c = '+' ∨ c = '?' ∨ c = '\\' ∨
    c = '|' ∨ c = '^' ∨ c = '$' ∨ c = '*'

/-- Parse the regex body into atoms; `none` if it uses unmodelled syntax. -/
def parseRAtoms : List Char → Option (List RAtom)
  | [] => some []
  | c :: '*' :: rest =>
      if rMeta c then none
      else
        match parseRAtoms rest with
        | some as => some (((if c = '.' then none else some c), true) :: as)
        | none => none
  | c :: rest =>
      if rMeta c then none
      else
        match parseRAtoms rest with
        | some as => some (((if c = '.' then none else some c), false) :: as)
        | none => none

/-- Does one atom base match one character (`.` matches all but newline)? -/
def rBaseMatch (base : Option Char) (c : Char) : Bool :=
  match base with
  | none => c ≠ '\n'
  | some k => c = k

/-- Backtracking matcher for an atom list against a char list, anchored at
both ends; the final `$` also matches just before a trailing newline, as in
Python `re`. -/
def rMatch : Nat → List RAtom → List Char → Bool
  | 0, _, _ => false
  | _ + 1, [], cs =>
      match cs with
      | [] => true
      | ['\n'] => true
      | _ => false
  | n + 1, (base, star) :: as, cs =>
      if star then
        rMatch n as cs ||
          (match cs with
           | [] => false
           | c :: rest => rBaseMatch base c && rMatch n ((base, true) :: as) rest)
      else
        match cs with
        | [] => false
        | c :: rest => rBaseMatch base c && rMatch n as rest

/-- `re.match('^' + body + '$', s) is not None`, for the modelled fragment. -/
def reFullMatch (body : List Char) (s : List Char) : Except Err Bool :=
  match parseRAtoms body with
  | some atoms => .ok (rMatch (atoms.length + s.length + 1) atoms s)
  | none => .error (.regexUnsupported body.asString)

/-- The SQL LIKE → regex translation of `parse_comparison`:
`pattern.replace('%', '.*').replace('_', '.')` (no escaping of anything
else). -/
def likeTranslate (pat : String) : String :=
  replaceSubstr "_" "." (replaceSubstr "%" ".*" pat)

/-! ## The `re.match` helpers of `parse_not_expression` / `parse_comparison`

Each regex of src/server.py is transcribed as a hand-rolled matcher.  The
suffix `\s+(.+)` / `\s*(.+)` is shared: the whitespace run is consumed
greedily, then `(.+)` needs at least one character and `.` cannot match a
newline, backtracking into the whitespace run when nothing else is left. -/

/-- Backtracking part of `\s{minWs,}(.+)` when the whole text is whitespace:
find the greediest start `j ≥ minWs` whose character is not a newline. -/
def backScan (t : List Char) (minWs : Nat) : Nat → Option (List Char)
  | 0 =>
      if minWs = 0 then
        match t.head? with
        | some c =>
            if c = '\n' then none
            else some (t.takeWhile (fun d => d ≠ '\n'))
        | none => none
      else none
  | j + 1 =>
      match t.get? (j + 1) with
      | some c =>
          if c = '\n' then
            if minWs ≤ j then backScan t minWs j else none
          else if minWs ≤ j + 1 then
            some ((t.drop (j + 1)).takeWhile (fun d => d ≠ '\n'))
          else none
      | none => backScan t minWs j

/-- Match `\s+(.+)` (`minWs = 1`) or `\s*(.+)` (`minWs = 0`) against a
prefix of `t`, returning the group (`re.match` does not require the regex to
span the whole string, so characters after a newline are simply not part of
the group). -/
def dotPlusGroup (minWs : Nat) (t : List Char) : Option (List Char) :=
  let w := (t.takeWhile isWs).length
  if w < minWs then none
  else
    match t.drop w with
    | [] => if w = 0 then none else backScan t minWs (w - 1)
    | rest => some (rest.takeWhile (fun c => c ≠ '\n'))

/-- Split a maximal `\w+` prefix. -/
def wordSpan (cs : List Char) : List Char × List Char :=
  (cs.takeWhile isWordChar, cs.dropWhile isWordChar)

/-- `re.match(r'\bnot\b\s+(.+)', cond, re.IGNORECASE)`: the leading word
boundary always holds at position 0, and the trailing one is subsumed by
the mandatory whitespace. -/
def notMatch (cs : List Char) : Option (List Char) :=
  if ciStarts ['n', 'o', 't'] cs then dotPlusGroup 1 (cs.drop 3)
  else none

/-- The scan of `parse_comparison` lines 190–197: walk the characters
tracking parenthesis depth and report the first index `i` at which the
depth returns to zero with `i < len - 1` (the `break`). -/
def pfzGo : List Char → Int → Nat → Nat → Option Nat
  | [], _, _, _ => none
  | c :: rest, depth, i, lastIdx =>
      let d' : Int := if c = '(' then depth + 1 else if c = ')' then depth - 1 else depth
      if d' = 0 ∧ i < lastIdx then some i
      else pfzGo rest d' (i + 1) lastIdx

/-- The outer-parenthesis stripping of `parse_comparison`: when the
condition starts with `(` and ends with `)` and the initial parenthesis
closes only at the very end, return the inner text. -/
def parenStripQ (cs : List Char) : Option (List Char) :=
  match cs with
  | '(' :: _ =>
      if cs.getLast? = some ')' then
        match pfzGo cs 0 0 (cs.length - 1) with
        | some _ => none
        | none => some (cs.drop 1).dropLast
      else none
  | _ => none

/-- The tail search of the BETWEEN regex
`(\w+)\s+between\s+(.+?)\s+and\s+(.+)`: after `between\s+`, find the lazily
shortest nonempty newline-free group followed by `\s+and\s+(.+)`. -/
def betweenTail : Nat → List Char → List Char → Option (List Char × List Char)
  | 0, _, _ => none
  | n + 1, acc, rest =>
      match rest with
      | [] => none
      | c :: rest' =>
          if c = '\n' then none
          else
            let acc' := c :: acc
            let wsLen := (rest'.takeWhile isWs).length
            if 1 ≤ wsLen ∧ ciStarts ['a', 'n', 'd'] (rest'.drop wsLen) then
              match dotPlusGroup 1 ((rest'.drop wsLen).drop 3) with
              | some g3 => some (acc'.reverse, g3)
              | none => betweenTail n acc' rest'
            else betweenTail n acc' rest'

/-- `re.match(r'(\w+)\s+between\s+(.+?)\s+and\s+(.+)', cond, re.IGNORECASE)`. -/
def betweenMatch (cs : List Char) : Option (List Char × List Char × List Char) :=
  let (f, r0) := wordSpan cs
  if f = [] then none
  else
    let ws1 := (r0.takeWhile isWs).length
    if ws1 = 0 then none
    else
      let r1 := r0.drop ws1
      if ciStarts ['b', 'e', 't', 'w', 'e', 'e', 'n'] r1 then
        let r2 := r1.drop 7
        let ws2 := (r2.takeWhile isWs).length
        if ws2 = 0 then none
        else
          let r3 := r2.drop ws2
          match betweenTail (r3.length + 1) [] r3 with
          | some (g2, g3) => some (f, g2, g3)
          | none => none
      else none

/-- `re.match(r"(\w+)\s+in\s+\((.+?)\)", cond, re.IGNORECASE)`: the group is
the (nonempty, newline-free) text up to the first closing parenthesis.
(Modelling note: when the first character after `(` is itself `)` — text
like `f in ())` — the real lazy `(.+?)` must take at least one character
and so captures that `)` closed by a second one, while this `takeWhile`
rendering returns no match; no theorem below depends on that region.) -/
def inMatch (cs : List Char) : Option (List Char × List Char) :=
  let (f, r0) := wordSpan cs
  if f = [] then none
  else
    let ws1 := (r0.takeWhile isWs).length
    if ws1 = 0 then none
    else
      let r1 := r0.drop ws1
      if ciStarts ['i', 'n'] r1 then
        let r2 := r1.drop 2
        let ws2 := (r2.takeWhile isWs).length
        if ws2 = 0 then none
        else
          match r2.drop ws2 with
          | '(' :: r4 =>
              let grp := r4.takeWhile (fun c => c ≠ ')')
              match r4.dropWhile (fun c => c ≠ ')') with
              | ')' :: _ =>
                  if grp ≠ [] ∧ grp.all (fun c => c ≠ '\n') then some (f, grp)
                  else none
              | _ => none
          | _ => none
      else none

/-- `re.match(r"(\w+)\s+like\s+'(.+?)'", cond, re.IGNORECASE)`.
(Modelling note: as in `inMatch`, a pattern text whose first character
after the opening quote is itself a quote — like `f like ''x''` — makes
the real lazy `(.+?)` capture across the first closing quote, while this
`takeWhile` rendering returns no match; no theorem below depends on that
region.) -/
def likeMatch (cs : List Char) : Option (List Char × List Char) :=
  let (f, r0) := wordSpan cs
  if f = [] then none
  else
    let ws1 := (r0.takeWhile isWs).length
    if ws1 = 0 then none
    else
      let r1 := r0.drop ws1
      if ciStarts ['l', 'i', 'k', 'e'] r1 then
        let r2 := r1.drop 4
        let ws2 := (r2.takeWhile isWs).length
        if ws2 = 0 then none
        else
          match r2.drop ws2 with
          | '\'' :: r4 =>
              let grp := r4.takeWhile (fun c => c ≠ '\'')
              match r4.dropWhile (fun c => c ≠ '\'') with
              | '\'' :: _ =>
                  if grp ≠ [] ∧ grp.all (fun c => c ≠ '\n') then some (f, grp)
                  else none
              | _ => none
          | _ => none
      else none

/-- `re.match(r'(\w+)\s*(<=|>=|!=|<>|=|<|>)\s*(.+)', cond)`: the alternation
is tried in the written order, so two-character operators win. -/
def cmpMatch (cs : List Char) : Option (List Char × String × List Char) :=
  let (f, r0) := wordSpan cs
  if f = [] then none
  else
    let r1 := r0.drop (r0.takeWhile isWs).length
    match r1 with
    | '<' :: '=' :: rest => (dotPlusGroup 0 rest).map (fun g => (f, "<=", g))
    | '>' :: '=' :: rest => (dotPlusGroup 0 rest).map (fun g => (f, ">=", g))
    | '!' :: '=' :: rest => (dotPlusGroup 0 rest).map (fun g => (f, "!=", g))
    | '<' :: '>' :: rest => (dotPlusGroup 0 rest).map (fun g => (f, "<>", g))
    | '=' :: rest => (dotPlusGroup 0 rest).map (fun g => (f, "=", g))
    | '<' :: rest => (dotPlusGroup 0 rest).map (fun g => (f, "<", g))
    | '>' :: rest => (dotPlusGroup 0 rest).map (fun g => (f, ">", g))
    | _ => none

/-! ## `validate_sql_syntax` and `extract_fields_from_condition` -/

/-- One position of the search for `[<>]=?[<>]|===|!==`. -/
def invalidOpAt (cs : List Char) : Bool :=
  (match cs with
   | c :: d :: _ => (c = '<' ∨ c = '>') ∧ (d = '<' ∨ d = '>')
   | _ => false) ||
  (match cs with
   | c :: '=' :: e :: _ => (c = '<' ∨ c = '>') ∧ (e = '<' ∨ e = '>')
   | _ => false) ||
  (match cs with
   | '=' :: '=' :: '=' :: _ => true
   | '!' :: '=' :: '=' :: _ => true
   | _ => false)

/-- `re.search(r'[<>]=?[<>]|===|!==', cond) is not None`. -/
def hasInvalidOp : List Char → Bool
  | [] => false
  | c :: rest => invalidOpAt (c :: rest) || hasInvalidOp rest

def countChar (c : Char) (cs : List Char) : Nat :=
  (cs.filter (fun d => d = c)).length

/-- `validate_sql_syntax(condition)` from src/server.py. -/
def validate_sql_syntax (cs : List Char) : Except Err Unit :=
  if countChar '(' cs ≠ countChar ')' cs then .error .unbalancedParens
  else if hasInvalidOp cs then .error .invalidOperator
  else if stripChars cs = [] then .error .emptyCondition
  else .ok ()

/-- The SQL keywords removed by `extract_fields_from_condition`, in source
order. -/
def SQL_KEYWORDS : List (List Char) :=
  [['a', 'n', 'd'], ['o', 'r'], ['n', 'o', 't'], ['i', 'n'],
   ['b', 'e', 't', 'w', 'e', 'e', 'n'], ['l', 'i', 'k', 'e']]

/-- `extract_fields_from_condition(condition)` from src/server.py.  The
result is the Python set of identifier tokens, modelled as a duplicate-free
list in first-encounter order (the iteration order of the Python set is
abstracted). -/
def extract_fields_from_condition (cs : List Char) : List String :=
  let t1 := replaceSubstrAuxF ['_', 'n', 'o', 'w', '(', ')'] [] cs.length cs
  let t2 := removeQuoted t1
  let t3 := removeNums t2
  let t4 := SQL_KEYWORDS.foldl (fun acc kw => removeWordCI kw acc) t3
  let t5 := opCharsToSpace t4
  dedupKeepFirst (((splitWs t5).filter isIdentifierTok).map List.asString)

/-! ## The recursive condition evaluator

`evaluate_condition` / `parse_or_expression` / `parse_and_expression` /
`parse_not_expression` / `parse_comparison` recurse into each other (the
parenthesized-atom case of `parse_comparison` re-enters
`evaluate_condition` on the inner text).  The `Nat` fuel makes the mutual
recursion structural; the top-level entry point supplies fuel that is
always sufficient, so `Err.fuelExhausted` is a model artifact that no
reachable execution produces. -/

/-- The `BETWEEN` branch of `parse_comparison` (evaluates both bounds, then
the chained comparison `lower <= user[field] <= upper`, whose second leg is
skipped when the first is false). -/
def betweenEval (u : User) (f lo hi : List Char) : Except Err Bool :=
  match eval_expression (stripChars lo).asString with
  | .error e => .error e
  | .ok l =>
      match eval_expression (stripChars hi).asString with
      | .error e => .error e
      | .ok h =>
          match userGet u f.asString with
          | .error e => .error e
          | .ok v =>
              match pyLe (.pint l) v with
              | .error e => .error e
              | .ok b => if b then pyLe v (.pint h) else .ok false

/-- `[int(v) for v in values]`, failing at the first unparsable element. -/
def intCoerceList : List String → Except Err (List Int)
  | [] => .ok []
  | s :: rest =>
      match pyIntParse s with
      | .error e => .error e
      | .ok k =>
          match intCoerceList rest with
          | .error e => .error e
          | .ok ks => .ok (k :: ks)

/-- The `IN` branch of `parse_comparison`: split the captured list on
commas, strip whitespace then quote characters from each element, coerce
all elements to `int` when the field is numeric, and test membership with
Python `==`. -/
def inEval (u : User) (f vals : List Char) : Except Err Bool :=
  let values := (splitOnChar ',' vals).map
    (fun v => (stripQuoteChars (stripChars v)).asString)
  if NUMERIC_FIELDS.contains f.asString then
    match intCoerceList values with
    | .error e => .error e
    | .ok ints =>
        match userGet u f.asString with
        | .error e => .error e
        | .ok v => .ok (ints.any (fun k => pyEq v (.pint k)))
  else
    match userGet u f.asString with
    | .error e => .error e
    | .ok v => .ok (values.any (fun s => pyEq v (.pstr s)))

/-- The `LIKE` branch of `parse_comparison`. -/
def likeEval (u : User) (f pat : List Char) : Except Err Bool :=
  let rx := likeTranslate pat.asString
  match userGet u f.asString with
  | .error e => .error e
  | .ok v => reFullMatch rx.toList (pyStr v).toList

/-- The operator dispatch of `parse_comparison` (`condFull` is the whole
condition text, used by the unreachable fall-through `raise`). -/
def cmpApply (condFull : String) (op : String) (a b : PyVal) : Except Err Bool :=
  if op = "=" then .ok (pyEq a b)
  else if op = "!=" ∨ op = "<>" then .ok (!(pyEq a b))
  else if op = "<" then pyLt a b
  else if op = ">" then pyLt b a
  else if op = "<=" then pyLe a b
  else if op = ">=" then pyLe b a
  else .error (.invalidFormat condFull)

/-- The standard-comparison branch of `parse_comparison`: fetch
`user[field]` first, then parse the right-hand side (a quoted string is
stripped of quotes, anything else goes to `eval_expression`). -/
def cmpEval (u : User) (condFull : String) (f : List Char) (op : String)
    (ve : List Char) : Except Err Bool :=
  match userGet u f.asString with
  | .error e => .error e
  | .ok uv =>
      let valueExpr := stripChars ve
      match valueExpr with
      | '\'' :: _ => cmpApply condFull op uv (.pstr (stripQuoteChars valueExpr).asString)
      | '"' :: _ => cmpApply condFull op uv (.pstr (stripQuoteChars valueExpr).asString)
      | _ =>
          match eval_expression valueExpr.asString with
          | .error e => .error e
          | .ok k => cmpApply condFull op uv (.pint k)

mutual

/-- `evaluate_condition(user, condition)` body after the `_now()`
substitution.  The Python function resamples `time.time()` and
re-substitutes on every (recursive) entry, but recursive entries always
receive text in which the initial global substitution already removed every
occurrence of `_now()`, so the resampled value is dead there; the live
sample is threaded by `evaluate_condition` below. -/
def evaluateConditionF : Nat → User → List Char → Except Err Bool
  | 0, _, _ => .error .fuelExhausted
  | n + 1, u, cond =>
      match validate_sql_syntax cond with
      | .error e => .error e
      | .ok _ =>
          let fields := extract_fields_from_condition cond
          let invalid := fields.filter (fun f => ¬ VALID_FIELDS.contains f)
          if invalid ≠ [] then .error (.unknownFields invalid)
          else parseOrF n u cond

/-- `parse_or_expression`. -/
def parseOrF : Nat → User → List Char → Except Err Bool
  | 0, _, _ => .error .fuelExhausted
  | n + 1, u, cond =>
      let parts := splitWordCI ['o', 'r'] cond
      if 1 < parts.length then anyPartsF n u parts
      else parseAndF n u cond

/-- `any(parse_and_expression(user, part.strip()) for part in or_parts)`:
lazy, short-circuiting on the first true, propagating the first
exception. -/
def anyPartsF : Nat → User → List (List Char) → Except Err Bool
  | 0, _, _ => .error .fuelExhausted
  | _ + 1, _, [] => .ok false
  | n + 1, u, p :: ps =>
      match parseAndF n u (stripChars p) with
      | .error e => .error e
      | .ok true => .ok true
      | .ok false => anyPartsF n u ps

/-- `parse_and_expression`. -/
def parseAndF : Nat → User → List Char → Except Err Bool
  | 0, _, _ => .error .fuelExhausted
  | n + 1, u, cond =>
      let parts := splitWordCI ['a', 'n', 'd'] cond
      if 1 < parts.length then allPartsF n u parts
      else parseNotF n u cond

/-- `all(parse_not_expression(user, part.strip()) for part in and_parts)`:
lazy, short-circuiting on the first false. -/
def allPartsF : Nat → User → List (List Char) → Except Err Bool
  | 0, _, _ => .error .fuelExhausted
  | _ + 1, _, [] => .ok true
  | n + 1, u, p :: ps =>
      match parseNotF n u (stripChars p) with
      | .error e => .error e
      | .ok false => .ok false
      | .ok true => allPartsF n u ps

/-- `parse_not_expression`.  Note that the inner condition goes straight to
`parse_comparison`, not back to `parse_not_expression`. -/
def parseNotF : Nat → User → List Char → Except Err Bool
  | 0, _, _ => .error .fuelExhausted
  | n + 1, u, cond0 =>
      let cond := stripChars cond0
      match notMatch cond with
      | some inner =>
          match parseCmpF n u (stripChars inner) with
          | .error e => .error e
          | .ok b => .ok (!b)
      | none => parseCmpF n u cond

/-- `parse_comparison`. -/
def parseCmpF : Nat → User → List Char → Except Err Bool
  | 0, _, _ => .error .fuelExhausted
  | n + 1, u, cond0 =>
      let cond := stripChars cond0
      match parenStripQ cond with
      | some inner => evaluateConditionF n u inner
      | none =>
          match betweenMatch cond with
          | some (f, lo, hi) => betweenEval u f lo hi
          | none =>
              match inMatch cond with
              | some (f, vals) => inEval u f vals
              | none =>
                  match likeMatch cond with
                  | some (f, pat) => likeEval u f pat
                  | none =>
                      match cmpMatch cond with
                      | some (f, op, ve) => cmpEval u cond.asString f op ve
                      | none => .error (.invalidFormat cond.asString)

end

/-- `evaluate_condition(user, condition)` from src/server.py, with the
wall-clock sample `now = int(time.time())` made explicit as a parameter
(design note: the substitution `re.sub(r'_now\(\)', str(now), condition)`
replaces every occurrence globally before anything else happens). -/
def evaluate_condition (u : User) (now : Int) (cond : String) : Except Err Bool :=
  let c := (replaceSubstr "_now()" (intStr now) cond).toList
  evaluateConditionF (20 * c.length + 40) u c

/-- The segment loop of the `/evaluate` POST handler.  The Python code
re-reads the wall clock inside every `evaluate_condition` call — that is,
once per segment, not once per request; nested re-entries also re-read it,
but those reads are dead (see `evaluateConditionF`).  The clock is modelled
as a stream of readings, the `i`-th segment observing `clock i`. -/
def evalSegsGo (clock : Nat → Int) (u : User) :
    Nat → List (String × String) → Except (String × Err) (List (String × Bool))
  | _, [] => .ok []
  | i, (name, rule) :: rest =>
      match evaluate_condition u (clock i) rule with
      | .error e => .error (name, e)
      | .ok b =>
          match evalSegsGo clock u (i + 1) rest with
          | .error e => .error e
          | .ok bs => .ok ((name, b) :: bs)

/-- `evaluate_segments` (the core of the POST handler): validate the user
document, then evaluate each segment in order, stopping at the first
error. -/
def evaluate_segments (clock : Nat → Int) (u : User)
    (segs : List (String × String)) :
    Except (String × Err) (List (String × Bool)) :=
  match validate_user_document u with
  | .error e => .error ("", e)
  | .ok _ => evalSegsGo clock u 0 segs

/-! ## Concrete records used in the theorems -/

/-- The valid record of the specification's concrete scenario:
`{id:"u1", level:5, country:"US", first_session:100, last_session:200,
purchase_amount:50, last_purchase_at:150}`. -/
def uRecord : User :=
  [("id", .pstr "u1"), ("level", .pint 5), ("country", .pstr "US"),
   ("first_session", .pint 100), ("last_session", .pint 200),
   ("purchase_amount", .pint 50), ("last_purchase_at", .pint 150)]

/-- A valid record with `level = 2` and `country = "CA"`. -/
def uLevel2CA : User :=
  [("id", .pstr "u1"), ("level", .pint 2), ("country", .pstr "CA"),
   ("first_session", .pint 100), ("last_session", .pint 200),
   ("purchase_amount", .pint 50), ("last_purchase_at", .pint 150)]

/-- `uRecord` with the boolean `true` in the numeric field `level`. -/
def uBoolLevel : User :=
  [("id", .pstr "u1"), ("level", .pbool true), ("country", .pstr "US"),
   ("first_session", .pint 100), ("last_session", .pint 200),
   ("purchase_amount", .pint 50), ("last_purchase_at", .pint 150)]

/-! ## Helper lemmas -/

/-- Pushing `List.any` through `List.map`. -/
theorem anyOverMap {A B : Type} (g : A → B) (p : B → Bool) (l : List A) :
    (l.map g).any p = l.any (fun a => p (g a)) := by
  induction l with
  | nil => rfl
  | cons x xs ih => simp [List.any, ih]

/-- Dict lookup as the `Except`-level `user[field]`. -/
theorem userGet_eq_ok (u : User) (f : String) (v : PyVal)
    (h : userGetOpt u f = some v) : userGet u f = .ok v := by
  unfold userGet
  rw [h]

/-- The two field-kind tables are disjoint. -/
theorem numeric_not_string (f : String) (h : NUMERIC_FIELDS.contains f = true) :
    STRING_FIELDS.contains f = false := by
  have hm : f ∈ NUMERIC_FIELDS := by simpa using h
  fin_cases hm <;> decide

/-- Stepping `evaluateConditionF` past a passing syntax check and a failing
field check: the unknown-field error is raised before any parsing. -/
theorem evalCondF_succ_unknown (n : Nat) (u : User) (cond : List Char)
    (hsyn : validate_sql_syntax cond = .ok ())
    (hbad : (extract_fields_from_condition cond).filter
        (fun g => ¬ VALID_FIELDS.contains g) ≠ []) :
    evaluateConditionF (n + 1) u cond =
      .error (.unknownFields ((extract_fields_from_condition cond).filter
        (fun g => ¬ VALID_FIELDS.contains g))) := by
  simp only [evaluateConditionF, hsyn]
  rw [if_pos hbad]

/-- Stepping `evaluateConditionF` past passing syntax and field checks. -/
theorem evalCondF_succ_ok (n : Nat) (u : User) (cond : List Char)
    (hsyn : validate_sql_syntax cond = .ok ())
    (hok : (extract_fields_from_condition cond).filter
        (fun g => ¬ VALID_FIELDS.contains g) = []) :
    evaluateConditionF (n + 1) u cond = parseOrF n u cond := by
  simp only [evaluateConditionF, hsyn, hok]
  simp

/-- `parse_or_expression` falls through when the OR split produces a single
part. -/
theorem parseOrF_single (n : Nat) (u : User) (cond : List Char)
    (hor : splitWordCI ['o', 'r'] cond = [cond]) :
    parseOrF (n + 1) u cond = parseAndF n u cond := by
  simp only [parseOrF, hor]
  simp

/-- `parse_and_expression` falls through when the AND split produces a
single part. -/
theorem parseAndF_single (n : Nat) (u : User) (cond : List Char)
    (hand : splitWordCI ['a', 'n', 'd'] cond = [cond]) :
    parseAndF (n + 1) u cond = parseNotF n u cond := by
  simp only [parseAndF, hand]
  simp

/-- `parse_not_expression` falls through when the NOT regex does not
match. -/
theorem parseNotF_no (n : Nat) (u : User) (cond : List Char)
    (hs : stripChars cond = cond) (hn : notMatch cond = none) :
    parseNotF (n + 1) u cond = parseCmpF n u cond := by
  simp only [parseNotF, hs, hn]

/-- `parse_comparison` dispatches to the IN branch when the earlier regexes
fail and the IN regex matches. -/
theorem parseCmpF_to_inEval (n : Nat) (u : User) (cond f vals : List Char)
    (hs : stripChars cond = cond) (hp : parenStripQ cond = none)
    (hb : betweenMatch cond = none) (hi : inMatch cond = some (f, vals)) :
    parseCmpF (n + 1) u cond = inEval u f vals := by
  simp only [parseCmpF, hs, hp, hb, hi]

/-- Characterization of the IN branch: with a present field and
successfully coerced element list, the result is membership under `==` —
a boolean, never an error. -/
theorem inEval_result (u : User) (f vals : List Char) (v : PyVal) (pvals : List PyVal)
    (hv : userGetOpt u f.asString = some v)
    (hco : (if NUMERIC_FIELDS.contains f.asString
            then (intCoerceList ((splitOnChar ',' vals).map
                (fun w => (stripQuoteChars (stripChars w)).asString))).map
                (fun ks => ks.map PyVal.pint)
            else .ok (((splitOnChar ',' vals).map
                (fun w => (stripQuoteChars (stripChars w)).asString)).map PyVal.pstr))
          = Except.ok pvals) :
    inEval u f vals = .ok (pvals.any (fun w => pyEq v w)) := by
  unfold inEval
  by_cases hnum : NUMERIC_FIELDS.contains f.asString
  · rw [if_pos hnum] at hco
    rw [if_pos hnum]
    cases hi : intCoerceList ((splitOnChar ',' vals).map
        (fun w => (stripQuoteChars (stripChars w)).asString)) with
    | error e => rw [hi] at hco; simp [Except.map] at hco
    | ok ks =>
        rw [hi] at hco
        simp only [Except.map] at hco
        cases hco
        rw [userGet_eq_ok u f.asString v hv]
        simp only [anyOverMap]
  · rw [if_neg hnum] at hco
    rw [if_neg hnum]
    cases hco
    rw [userGet_eq_ok u f.asString v hv]
    simp only [anyOverMap]

/-! ## Claim C1 -/

/-- Claim C1 (code_bug): the spec requires the OR/AND keyword split to be a
split point only at parenthesis nesting depth 0, so that
`level>1 and (country='US' or country='CA')` evaluates to `A && (B || C)`
(true on a valid record with level=2 and country='CA').  The code splits
with `re.split(r'\bor\b', ...)` with no depth awareness, which cuts the
rule inside the parenthesized group; the mangled fragment
`(country='US'` then matches no comparison form and evaluation raises
`ValueError: Invalid condition format` instead of returning true. -/
theorem c1_and_paren_group_errors :
    evaluate_condition uLevel2CA 0 "level>1 and (country='US' or country='CA')" =
      .error (.invalidFormat "(country='US'") := by decide

/-! ## Claim C2 -/

/-- Claim C2 (code_bug): the spec requires the wall clock to be sampled
exactly once per request, every `_now()` in every segment seeing the same
integer.  The code executes `now = int(time.time())` inside
`evaluate_condition`, i.e. once per segment: with the clock advancing by
one second between the two segment evaluations of a single request, two
segments with the identical rule `last_session < _now()` observe different
timestamps (200 and 201) and return different booleans on the same record
(`last_session = 200`). -/
theorem c2_now_differs_across_segments :
    evaluate_segments (fun i => 200 + i) uRecord
      [("a", "last_session < _now()"), ("b", "last_session < _now()")] =
      .ok [("a", false), ("b", true)] := by decide

/-! ## Claim C3 -/

/-- Claim C3 (code_bug): the spec requires `level between 5 and 5` to be
true exactly when level = 5.  The code splits every condition at `\band\b`
before `parse_comparison` ever sees it, so the BETWEEN atom is cut at its
own `and`: the first fragment `level between 5` matches no comparison form
and evaluation raises `ValueError: Invalid condition format` — the BETWEEN
branch of `parse_comparison` is unreachable for every input. -/
theorem c3_between_always_errors :
    evaluate_condition uRecord 0 "level between 5 and 5" =
      .error (.invalidFormat "level between 5") := by decide

/-! ## Claim C4 -/

/-- Claim C4 (code_bug): the spec requires `not not expr` to evaluate to the
same boolean as `expr`.  In the code `parse_not_expression` hands the inner
condition to `parse_comparison` instead of recursing into itself, so for
the successfully evaluating expression `level>1` (true on the record, and
`not level>1` is false), the rule `not not level>1` raises
`ValueError: Invalid condition format: not level>1` instead of returning
true. -/
theorem c4_not_not_errors :
    evaluate_condition uRecord 0 "level>1" = .ok true ∧
    evaluate_condition uRecord 0 "not level>1" = .ok false ∧
    evaluate_condition uRecord 0 "not not level>1" =
      .error (.invalidFormat "not level>1") := by decide

/-! ## Claim C5 -/

/-- Claim C5 (corrected), counterexample: the claim says `level = 'abc'` is
a TypeMismatch error on every valid record, never false.  On the valid
record it evaluates to `false`: Python `==` between an `int` and a `str` is
simply unequal, no error is raised. -/
theorem c5_mixed_eq_returns_false :
    evaluate_condition uRecord 0 "level = 'abc'" = .ok false := by decide

/-- Claim C5 (corrected, amended): on a valid record a mixed-type
comparison with `=` returns false and with `!=` returns true — a boolean,
never a TypeMismatch error; only the ordered operators `<`, `>`, `<=`, `>=`
fail, with Python's unorderable-types `TypeError`. -/
theorem c5_amended_mixed_comparisons (u : User) (n : Int) (s : String)
    (h1 : userGetOpt u "level" = some (.pint n))
    (h2 : userGetOpt u "country" = some (.pstr s)) :
    evaluate_condition u 0 "level = 'abc'" = .ok false ∧
    evaluate_condition u 0 "level != 'abc'" = .ok true ∧
    evaluate_condition u 0 "level < 'abc'" = .error .typeErrorCmp ∧
    evaluate_condition u 0 "country > 5" = .error .typeErrorCmp ∧
    evaluate_condition u 0 "country = 5" = .ok false := by
  have hg1 : userGet u "level".toList.asString = .ok (.pint n) := userGet_eq_ok _ _ _ h1
  have hg2 : userGet u "country".toList.asString = .ok (.pstr s) := userGet_eq_ok _ _ _ h2
  refine ⟨?_, ?_, ?_, ?_, ?_⟩
  · have e : evaluate_condition u 0 "level = 'abc'" =
        cmpEval u "level = 'abc'" "level".toList "=" "'abc'".toList := rfl
    rw [e]
    unfold cmpEval
    rw [hg1]
    rfl
  · have e : evaluate_condition u 0 "level != 'abc'" =
        cmpEval u "level != 'abc'" "level".toList "!=" "'abc'".toList := rfl
    rw [e]
    unfold cmpEval
    rw [hg1]
    rfl
  · have e : evaluate_condition u 0 "level < 'abc'" =
        cmpEval u "level < 'abc'" "level".toList "<" "'abc'".toList := rfl
    rw [e]
    unfold cmpEval
    rw [hg1]
    rfl
  · have e : evaluate_condition u 0 "country > 5" =
        cmpEval u "country > 5" "country".toList ">" "5".toList := rfl
    rw [e]
    unfold cmpEval
    rw [hg2]
    rfl
  · have e : evaluate_condition u 0 "country = 5" =
        cmpEval u "country = 5" "country".toList "=" "5".toList := rfl
    rw [e]
    unfold cmpEval
    rw [hg2]
    rfl

/-- Claim C5 witness: the amended theorem applied to the concrete valid
record. -/
theorem c5_amended_mixed_comparisons_witness :
    userGetOpt uRecord "level" = some (.pint 5) ∧
    userGetOpt uRecord "country" = some (.pstr "US") ∧
    (evaluate_condition uRecord 0 "level = 'abc'" = .ok false ∧
     evaluate_condition uRecord 0 "level != 'abc'" = .ok true ∧
     evaluate_condition uRecord 0 "level < 'abc'" = .error .typeErrorCmp ∧
     evaluate_condition uRecord 0 "country > 5" = .error .typeErrorCmp ∧
     evaluate_condition uRecord 0 "country = 5" = .ok false) :=
  ⟨by decide, by decide,
   c5_amended_mixed_comparisons uRecord 5 "US" (by decide) (by decide)⟩

/-! ## Claim C6 -/

/-- Claim C6 (corrected), counterexample: the claim says a record with
`level = true` fails validation.  It passes: `isinstance(True, int)` holds
in Python (bool is a subclass of int), and `True < 0` is false, so
`validate_user_document` accepts the boolean. -/
theorem c6_bool_level_passes_validation :
    validate_user_document uBoolLevel = .ok () := by decide

/-- Claim C6 (corrected, amended): a floating value in a numeric field is
rejected as not-an-integer (the first failing item reports
`Field must be an integer`), but a boolean passes the check.  Stated for
any document whose earlier items validate and whose required fields are
present. -/
theorem c6_amended_float_rejected (pre post : List (String × PyVal)) (f : String) (q : ℚ)
    (hf : NUMERIC_FIELDS.contains f = true)
    (hpre : ∀ fv ∈ pre, itemCheck fv = .ok ())
    (hreq : checkRequired REQUIRED_FIELDS (pre ++ (f, .pfloat q) :: post) = .ok ()) :
    validate_user_document (pre ++ (f, .pfloat q) :: post) = .error (.notInteger f) := by
  have key : ∀ (l : List (String × PyVal)), (∀ fv ∈ l, itemCheck fv = .ok ()) →
      itemsCheck (l ++ (f, .pfloat q) :: post) = .error (.notInteger f) := by
    intro l hl
    induction l with
    | nil =>
        simp only [List.nil_append]
        unfold itemsCheck
        have hic : itemCheck (f, .pfloat q) = .error (.notInteger f) := by
          unfold itemCheck
          have hs : f ∉ STRING_FIELDS := by
            simpa using numeric_not_string f hf
          have hf2 : f ∈ NUMERIC_FIELDS := by simpa using hf
          simp [hs, hf2, isinstanceInt]
        rw [hic]
    | cons a tl ih =>
        simp only [List.cons_append]
        unfold itemsCheck
        rw [hl a (by simp)]
        exact ih (fun fv hm => hl fv (by simp [hm]))
  unfold validate_user_document
  rw [hreq]
  exact key pre hpre

/-- Claim C6 witness: a document whose `purchase_amount` holds the float
one-half is rejected as not-an-integer. -/
theorem c6_amended_float_rejected_witness :
    validate_user_document
      ([("id", .pstr "u1"), ("level", .pint 5), ("country", .pstr "US"),
        ("first_session", .pint 100), ("last_session", .pint 200)] ++
        ("purchase_amount", PyVal.pfloat (1 / 2)) :: [("last_purchase_at", .pint 150)]) =
      .error (.notInteger "purchase_amount") :=
  c6_amended_float_rejected _ _ "purchase_amount" (1 / 2) (by decide) (by decide) (by decide)

/-! ## Claim C7 -/

/-- Claim C7 (confirmed): for any rule that passes the syntax check and
whose extracted identifier tokens include any outside the seven recognized
fields, evaluation fails with the unknown-fields error naming all offending
tokens together, for every record alike: the check runs in
`evaluate_condition` before `parse_or_expression` is ever called, so no
comparison is evaluated against the record. -/
theorem c7_unknown_fields_error_before_eval (u : User) (now : Int) (cond : String)
    (hsyn : validate_sql_syntax (replaceSubstr "_now()" (intStr now) cond).toList = .ok ())
    (hbad : (extract_fields_from_condition
        (replaceSubstr "_now()" (intStr now) cond).toList).filter
        (fun g => ¬ VALID_FIELDS.contains g) ≠ []) :
    evaluate_condition u now cond =
      .error (.unknownFields
        ((extract_fields_from_condition
          (replaceSubstr "_now()" (intStr now) cond).toList).filter
          (fun g => ¬ VALID_FIELDS.contains g))) := by
  unfold evaluate_condition
  change evaluateConditionF
    (20 * (replaceSubstr "_now()" (intStr now) cond).toList.length + 39 + 1) u _ = _
  exact evalCondF_succ_unknown _ _ _ hsyn hbad

/-- Claim C7 witness: an otherwise well-formed rule with two bogus fields
fails with both named together, on the concrete valid record. -/
theorem c7_unknown_fields_error_before_eval_witness :
    evaluate_condition uRecord 0 "bogus > 1 and fake < 2" =
      .error (.unknownFields ["bogus", "fake"]) :=
  c7_unknown_fields_error_before_eval uRecord 0 "bogus > 1 and fake < 2"
    (by decide) (by decide)

/-! ## Claim C8 -/

/-- Claim C8 (corrected), counterexample: the claim says any operand text
with no non-whitespace character outside `0-9+-*/()` evaluates (so
`1<TAB>+2`, whose only extra character is the whitespace TAB, should yield
3), and that division is exact with the final value truncated (so
`1/49*49` should yield 1).  The code strips only spaces, so the interior
tab fails the character filter with `Invalid expression`; and `eval` uses
binary64 float division, so `1/49*49` evaluates to
0.9999999999999999 and `int` truncates it to 0. -/
theorem c8_whitespace_and_float_counterexample :
    eval_expression "1\t+2" = .error (.invalidExpression "1\t+2") ∧
    eval_expression "1/49*49" = .ok 0 := by decide

/-- Claim C8 (corrected, amended): `eval_expression` fails when, after
removing space characters only (other whitespace is not stripped and is
then rejected), any character outside `0-9+-*/()` remains or nothing
remains.  Otherwise the text goes to Python `eval`, whose grammar over this
character set also admits `**` (exponentiation, exact on integer operands
with nonnegative exponents: `2**3` is 8, right-associative: `2**3**2` is
512) and `//` (floor division: `7//2` is 3, `-7//2` is -4, error on zero);
`+ - *` on integers are exact, `/` is Python binary64 float division —
exact when representable (`7/2*2` yields 7) but not in general (`1/49*49`
yields 0) — division by zero errors, and the final value is truncated
toward zero by `int()` (`-7/2` yields -3, in contrast with `-7//2`). -/
theorem c8_amended_eval_expression :
    (∀ s : String, charsOk (removeSpaces (stripChars s.toList)) = false →
        eval_expression s =
          .error (.invalidExpression (removeSpaces (stripChars s.toList)).asString)) ∧
    eval_expression "2+3*4" = .ok 14 ∧
    eval_expression "(2+3)*4" = .ok 20 ∧
    eval_expression "7/2*2" = .ok 7 ∧
    eval_expression "1/0" = .error (.evalFailed "1/0" .zeroDiv) ∧
    eval_expression "1/49*49" = .ok 0 ∧
    eval_expression "2**3" = .ok 8 ∧
    eval_expression "2**3**2" = .ok 512 ∧
    eval_expression "2**-1" = .ok 0 ∧
    eval_expression "(7/2)**2" = .ok 12 ∧
    eval_expression "7//2" = .ok 3 ∧
    eval_expression "-7//2" = .ok (-4) ∧
    eval_expression "-7/2" = .ok (-3) ∧
    eval_expression "7//0" = .error (.evalFailed "7//0" .zeroDiv) := by
  refine ⟨?_, by decide, by decide, by decide, by decide, by decide, by decide,
    by decide, by decide, by decide, by decide, by decide, by decide, by decide⟩
  intro s h
  have h2 : charsOk (removeSpaces (stripChars s.data)) = false := h
  unfold eval_expression
  simp [h2]

/-- Claim C8 witness: the general conjunct applied to the concrete operand
`1@2`, whose `@` fails the character filter. -/
theorem c8_amended_eval_expression_witness :
    charsOk (removeSpaces (stripChars "1@2".toList)) = false ∧
    eval_expression "1@2" = .error (.invalidExpression "1@2") :=
  ⟨by decide, c8_amended_eval_expression.1 "1@2" (by decide)⟩

/-! ## Claim C9 -/

/-- Claim C9 (corrected), counterexample: the claim says an IN rule on a
recognized field with type-valid elements returns a boolean, never an
error.  The element `'or'` is a type-valid text value, but the depth- and
quote-unaware OR splitter runs first and cuts the rule inside the string
literal; the fragment `country in ('` then matches no comparison form and
evaluation errors instead of returning false. -/
theorem c9_keyword_element_errors :
    evaluate_condition uRecord 0 "country in ('or')" =
      .error (.invalidFormat "country in ('") := by decide

/-- Claim C9 (corrected, amended): an IN rule on a recognized field whose
text the keyword splitters leave intact (no whole-word `and`/`or` anywhere,
including inside quoted elements) and whose elements all coerce to the
field's native type evaluates to exactly the membership of `record[field]`
in the coerced list — true iff some element equals the field value, false
(never an error) otherwise, including for an empty-looking element list. -/
theorem c9_amended_in_semantics (u : User) (now : Int) (s f body : String)
    (v : PyVal) (pvals : List PyVal)
    (hsub : replaceSubstr "_now()" (intStr now) s = s)
    (hsyn : validate_sql_syntax s.toList = .ok ())
    (hfld : (extract_fields_from_condition s.toList).filter
        (fun g => ¬ VALID_FIELDS.contains g) = [])
    (hor : splitWordCI ['o', 'r'] s.toList = [s.toList])
    (hand : splitWordCI ['a', 'n', 'd'] s.toList = [s.toList])
    (hstrip : stripChars s.toList = s.toList)
    (hnot : notMatch s.toList = none)
    (hparen : parenStripQ s.toList = none)
    (hbet : betweenMatch s.toList = none)
    (hin : inMatch s.toList = some (f.toList, body.toList))
    (hv : userGetOpt u f = some v)
    (hco : (if NUMERIC_FIELDS.contains f
            then (intCoerceList ((splitOnChar ',' body.toList).map
                (fun w => (stripQuoteChars (stripChars w)).asString))).map
                (fun ks => ks.map PyVal.pint)
            else .ok (((splitOnChar ',' body.toList).map
                (fun w => (stripQuoteChars (stripChars w)).asString)).map PyVal.pstr))
          = Except.ok pvals) :
    evaluate_condition u now s = .ok (pvals.any (fun w => pyEq v w)) := by
  unfold evaluate_condition
  rw [hsub]
  change evaluateConditionF (20 * s.toList.length + 39 + 1) u s.toList = _
  rw [evalCondF_succ_ok _ _ _ hsyn hfld]
  change parseOrF (20 * s.toList.length + 38 + 1) u s.toList = _
  rw [parseOrF_single _ _ _ hor]
  change parseAndF (20 * s.toList.length + 37 + 1) u s.toList = _
  rw [parseAndF_single _ _ _ hand]
  change parseNotF (20 * s.toList.length + 36 + 1) u s.toList = _
  rw [parseNotF_no _ _ _ hstrip hnot]
  change parseCmpF (20 * s.toList.length + 35 + 1) u s.toList = _
  rw [parseCmpF_to_inEval _ _ _ _ _ hstrip hparen hbet hin]
  exact inEval_result u f.toList body.toList v pvals (by exact hv) (by exact hco)

/-- Claim C9 witness: the amended theorem applied to
`country in ('US','CA')` on the record with country = "US", evaluating to
true. -/
theorem c9_amended_in_semantics_witness :
    evaluate_condition uRecord 0 "country in ('US','CA')" = .ok true :=
  c9_amended_in_semantics uRecord 0 "country in ('US','CA')" "country" "'US','CA'"
    (.pstr "US") [.pstr "US", .pstr "CA"]
    (by decide) (by decide) (by decide) (by decide) (by decide) (by decide)
    (by decide) (by decide) (by decide) (by decide) (by decide) (by decide)

/-! ## Claim C10 -/

/-- Claim C10 (confirmed): the LIKE pattern is translated by the two literal
replacements `% → .*` and `_ → .` with no escaping of the remaining
characters, so a regex metacharacter such as `.` in the pattern acts as a
regex operator: on the valid record with country = "US", the rule
`country like 'U.'` evaluates to true even though the literal character `.`
does not occur in "US". -/
theorem c10_like_metachar_wildcard :
    likeTranslate "U." = "U." ∧
    likeTranslate "U%" = "U.*" ∧
    likeTranslate "U_" = "U." ∧
    likeTranslate "100%" = "100.*" ∧
    evaluate_condition uRecord 0 "country like 'U.'" = .ok true ∧
    evaluate_condition uRecord 0 "country like 'X.'" = .ok false := by decide

end SegServer
